import Mathlib

/-
Verification development for the zangetsu repository.

The JavaScript sources under lib/zangetsu are shallowly embedded as Lean
definitions:

  * group.js          -> Zangetsu.Group (close, remove, removeOne,
                         validateGroupName)
  * replica_slave.js  -> Zangetsu.SyncState, addToWorkQueue,
                         scheduleSlaveSynchronizationCommands, cleanupWorkItem,
                         cleanupWorkQueue, pruneOne, pruneAll,
                         fillBySendingBuffers, fillByStreamingDataFile,
                         handleCheckResult, onRemoveFromOurDatabase,
                         onAddingToOurDatabase

JavaScript objects used as maps (database.groups, group.timeEntries, the
replication table of contents) are modelled as association lists in key
iteration order; object keys are unique in JavaScript, which appears below as
Nodup hypotheses on the key lists where a proof needs it.  JavaScript
truthiness of an optional integer argument (undefined and 0 are both falsy)
is modelled by jsTruthy.  File system side effects (renames, background
recursive deletion, TimeEntry close calls) are recorded in effect lists
instead of being performed.
-/

namespace Zangetsu

/-- Truthiness of an optional integer in JavaScript: undefined and 0 are
falsy, every other number is truthy. -/
def jsTruthy : Option Nat → Bool
  | none => false
  | some n => n ≠ 0

/-- Conversion of a possibly undefined string to a JavaScript property key:
reading a property with an undefined key coerces the key to the string
"undefined". -/
def jsKey : Option String → String
  | some s => s
  | none => "undefined"

/-- Modelled from the spec: IOUtils.renameToHidden (io_utils.js is not in the
sources).  The spec states that destruction synchronously renames a directory
to a hidden name (.hidden-(uuid)) and then unlinks it in the background.  The
fresh hidden name is modelled deterministically from the old path; only the
renaming effect matters to the claims, never the exact name. -/
def renameToHidden (path : String) : String :=
  ".hidden-" ++ path

/-- Modelled from the spec: the TimeEntry attributes that group.js and
replica_slave.js read (time_entry.js is not in the sources).  Only the path
and writtenSize fields are consulted by the embedded code. -/
structure TimeEntry where
  path : String := ""
  writtenSize : Nat := 0
  deriving Repr, DecidableEq

/-- Embedding of the Group object state from group.js. -/
structure Group where
  name : String := ""
  path : String := ""
  timeEntryCount : Int := 0
  timeEntries : List (Nat × TimeEntry) := []
  closed : Bool := false
  deriving Repr, DecidableEq

/-- Embedding of validateGroupNameChar from group.js. -/
def validateGroupNameChar (ch : Char) : Bool :=
  (('a' ≤ ch ∧ ch ≤ 'z')
    ∨ ('A' ≤ ch ∧ ch ≤ 'Z')
    ∨ ('0' ≤ ch ∧ ch ≤ '9')
    ∨ ch = '_'
    ∨ ch = '-'
    ∨ ch = '.' : Bool)

/-- Embedding of validateGroupName from group.js, transliterated faithfully:
the character loop is bounded by name.legth, a misspelled (hence undefined)
property, and the comparison i < undefined is false in JavaScript, so the
loop body never runs.  Only the emptiness and leading dot checks are live. -/
def validateGroupName (name : String) : Bool :=
  if name.length = 0 ∨ name.data.head? = some '.' then
    false
  else
    true

/-- Statement of the specified (intended) semantics of validateGroupName, for
comparison with the embedded code: non-empty, not starting with a dot, and
every character drawn from [A-Za-z0-9_.-]. -/
def validGroupNameSpec (name : String) : Bool :=
  ¬ (name.length = 0 ∨ name.data.head? = some '.')
    ∧ name.data.all validateGroupNameChar

/-- Effects record of a Group removal operation: the resulting group object,
the synchronous renames performed (old path, hidden path), the day timestamps
whose TimeEntry close method was invoked, the directories scheduled for
background recursive deletion, and whether the callback received an error. -/
structure GroupRemoveResult where
  group : Group
  renamed : List (String × String) := []
  closedEntries : List Nat := []
  scheduledDeletes : List String := []
  errored : Bool := false
  deriving Repr, DecidableEq

/-- Embedding of Group.prototype.close from group.js: the time entry map and
counter are snapshotted and cleared, the closed flag is set, and close is
invoked on every snapshotted time entry.  Returns the new group state and the
day timestamps whose entries were closed. -/
def Group.close (g : Group) : Group × List Nat :=
  ({ g with timeEntryCount := 0, timeEntries := [], closed := true },
   g.timeEntries.map Prod.fst)

/-- State threaded through the removal loop of Group.prototype.remove:
current group object, renames performed, entries closed, directories pushed
onto dirsToRemove (in push order). -/
structure RemoveLoopState where
  group : Group
  renamed : List (String × String) := []
  closedEntries : List Nat := []
  dirsToRemove : List String := []
  deriving Repr, DecidableEq

/-- Embedding of one iteration of the removal loop in Group.prototype.remove:
rename the time entry directory to a hidden name, close the entry, decrement
timeEntryCount, delete the map slot, and remember the hidden directory for
background deletion. -/
def removeLoopStep (st : RemoveLoopState) (dts : Nat) : RemoveLoopState :=
  match st.group.timeEntries.lookup dts with
  | none => st
  | some te =>
      { group := { st.group with
          timeEntries := st.group.timeEntries.filter (fun p => p.1 ≠ dts),
          timeEntryCount := st.group.timeEntryCount - 1 },
        renamed := st.renamed ++ [(te.path, renameToHidden te.path)],
        closedEntries := st.closedEntries ++ [dts],
        dirsToRemove := st.dirsToRemove ++ [renameToHidden te.path] }

/-- Embedding of Group.prototype.remove from group.js.  The dayTimestamp
argument is tested with JavaScript truthiness, so both undefined and 0 select
the whole-group branch.  In the truthy branch the day timestamps strictly
below the bound are collected first and then removed one by one; the
collected hidden directories are deleted in the background in pop order.  In
the falsy branch the group directory itself is renamed, the group is closed,
and one background deletion is spawned.  Renames are modelled as always
succeeding, so the error paths of the source are unreachable here. -/
def Group.remove (g : Group) (dayTimestamp : Option Nat) : GroupRemoveResult :=
  if jsTruthy dayTimestamp then
    let d := dayTimestamp.getD 0
    let dayTimestampsToRemove := (g.timeEntries.map Prod.fst).filter (fun dts => dts < d)
    let fin := dayTimestampsToRemove.foldl removeLoopStep { group := g }
    { group := fin.group,
      renamed := fin.renamed,
      closedEntries := fin.closedEntries,
      scheduledDeletes := fin.dirsToRemove.reverse }
  else
    let c := g.close
    { group := c.1,
      renamed := [(g.path, renameToHidden g.path)],
      closedEntries := c.2,
      scheduledDeletes := [renameToHidden g.path] }

/-- Embedding of Group.prototype.removeOne from group.js: look the entry up;
when absent, invoke the callback at once with no further effect; when
present, rename it to a hidden name, close it, decrement the counter, delete
the map slot and spawn one background deletion. -/
def Group.removeOne (g : Group) (dayTimestamp : Nat) : GroupRemoveResult :=
  match g.timeEntries.lookup dayTimestamp with
  | none => { group := g }
  | some te =>
      { group := { g with
          timeEntries := g.timeEntries.filter (fun p => p.1 ≠ dayTimestamp),
          timeEntryCount := g.timeEntryCount - 1 },
        renamed := [(te.path, renameToHidden te.path)],
        closedEntries := [dayTimestamp],
        scheduledDeletes := [renameToHidden te.path] }

/-
Embedding of replica_slave.js.  The replication table of contents received
from the slave is a JSON object of shape (groupName -> (dayTimestamp ->
(size))), modelled as nested association lists with the day timestamp keys
already parsed to Nat (the source applies parseInt to each key).  Work items
are JavaScript objects; the statement (delete details.command) in
processNextReplicationCommand removes that property, so the command field is
modelled as an Option that dispatching sets to none.
-/

/-- States of the replica slave session state machine. -/
inductive SessionState
  | uninitialized
  | backgroundSynchronizing
  | lockedSynchronizing
  | ready
  | disconnected
  deriving Repr, DecidableEq

/-- Replication command types of replica_slave.js. -/
inductive WorkCommand
  | pruneOne
  | pruneAll
  | fill
  | checkResults
  deriving Repr, DecidableEq

/-- Work queue item.  Fields mirror the properties the source stores on work
item objects; groupName and group are distinct properties (the event handler
onRemoveFromOurDatabase writes group while pruneOne reads groupName).  The
timeEntry reference is identified by its (group, dayTimestamp) key, callbacks
by opaque numeric identifiers, and data buffers by their byte lengths. -/
structure WorkItem where
  command : Option WorkCommand
  groupName : Option String := none
  group : Option String := none
  dayTimestamp : Option Nat := none
  timeEntry : Option (String × Nat) := none
  dataBuffers : Option (List Nat) := none
  size : Option Nat := none
  callback : Option Nat := none
  cleaned : Bool := false
  deriving Repr, DecidableEq

/-- Protocol command names sent to the slave. -/
inductive MsgCommand
  | add
  | results
  | removeOne
  | remove
  | getToc
  | ping
  deriving Repr, DecidableEq

/-- Outgoing JSON message; absent fields are none (JSON serialization of a
JavaScript object omits properties whose value is undefined). -/
structure Message where
  command : MsgCommand
  group : Option String := none
  dayTimestamp : Option Nat := none
  timestamp : Option Nat := none
  size : Option Nat := none
  opid : Option Nat := none
  corrupted : Option Bool := none
  deriving Repr, DecidableEq

/-- Slave table of contents for one group: day timestamp to recorded size. -/
abbrev GroupToc := List (Nat × Nat)

/-- Slave table of contents mirror kept by the session. -/
abbrev Toc := List (String × GroupToc)

/-- Replicator state threaded through scheduling: the work queue, the result
check counter and threshold, and the log of incReadOperations calls issued
while scheduling (identified by time entry key). -/
structure SyncState where
  workQueue : List WorkItem := []
  resultCheckCounter : Nat := 0
  resultCheckThreshold : Nat
  incs : List (String × Nat) := []
  deriving Repr, DecidableEq

/-- Embedding of addToWorkQueue from replica_slave.js: push the item; for a
fill command that carries data buffers, bump the result check counter and,
at the threshold, reset it and push a CHECK_RESULTS item carrying the
callback; otherwise attach the callback to the item just pushed. -/
def addToWorkQueue (st : SyncState) (item : WorkItem) (callback : Option Nat) : SyncState :=
  if item.command = some .fill ∧ item.dataBuffers.isSome then
    if st.resultCheckCounter + 1 ≥ st.resultCheckThreshold then
      { st with
        workQueue := st.workQueue ++ [item, { command := some .checkResults, callback := callback }],
        resultCheckCounter := 0 }
    else
      { st with
        workQueue := st.workQueue ++ [{ item with callback := callback }],
        resultCheckCounter := st.resultCheckCounter + 1 }
  else
    { st with workQueue := st.workQueue ++ [{ item with callback := callback }] }

/-- Work item enqueued by the synchronization diff for pruning one group or
one (group, dayTimestamp) pair on the slave. -/
def pruneOneItem (g : String) (dst : Option Nat) : WorkItem :=
  { command := some .pruneOne, groupName := some g, dayTimestamp := dst }

/-- Work item enqueued by the synchronization diff for filling one time entry
on the slave by streaming from disk (no data buffers). -/
def fillItem (g : String) (dst : Nat) : WorkItem :=
  { command := some .fill, groupName := some g, dayTimestamp := some dst,
    timeEntry := some (g, dst) }

/-- Inner loop body of the first pass of scheduleSlaveSynchronizationCommands:
one (dayTimestamp, size) pair of the slave table of contents for a group that
exists locally. -/
def scheduleSyncEntry (g : String) (lg : Group) (st : SyncState) (p : Nat × Nat) : SyncState :=
  match lg.timeEntries.lookup p.1 with
  | some lte =>
      if lte.writtenSize < p.2 then
        let st1 := addToWorkQueue st (pruneOneItem g (some p.1)) none
        let st2 := addToWorkQueue st1 (fillItem g p.1) none
        { st2 with incs := st2.incs ++ [(g, p.1)] }
      else st
  | none => addToWorkQueue st (pruneOneItem g (some p.1)) none

/-- Outer loop body of the first pass of scheduleSlaveSynchronizationCommands:
one group of the slave table of contents. -/
def scheduleSyncSlaveGroup (groups : List (String × Group)) (st : SyncState)
    (e : String × GroupToc) : SyncState :=
  match groups.lookup e.1 with
  | some lg => e.2.foldl (scheduleSyncEntry e.1 lg) st
  | none => addToWorkQueue st { command := some .pruneOne, groupName := some e.1 } none

/-- Inner loop body of the second pass of scheduleSlaveSynchronizationCommands:
one local (dayTimestamp, timeEntry) pair. -/
def scheduleSyncLocalEntry (toc : Toc) (g : String) (st : SyncState)
    (q : Nat × TimeEntry) : SyncState :=
  match (toc.lookup g).bind (fun gt => gt.lookup q.1) with
  | some size =>
      if q.2.writtenSize > size then
        let st1 := addToWorkQueue st (fillItem g q.1) none
        { st1 with incs := st1.incs ++ [(g, q.1)] }
      else st
  | none =>
      if q.2.writtenSize > 0 then
        let st1 := addToWorkQueue st (fillItem g q.1) none
        { st1 with incs := st1.incs ++ [(g, q.1)] }
      else st

/-- Outer loop body of the second pass of scheduleSlaveSynchronizationCommands:
one local group. -/
def scheduleSyncLocalGroup (toc : Toc) (st : SyncState) (e : String × Group) : SyncState :=
  e.2.timeEntries.foldl (scheduleSyncLocalEntry toc e.1) st

/-- Embedding of scheduleSlaveSynchronizationCommands from replica_slave.js:
first walk the slave table of contents scheduling prunes and refills, then
walk the local database scheduling fills, calling incReadOperations on every
time entry referenced by a scheduled fill. -/
def scheduleSlaveSynchronizationCommands (toc : Toc) (groups : List (String × Group))
    (st : SyncState) : SyncState :=
  groups.foldl (scheduleSyncLocalGroup toc) (toc.foldl (scheduleSyncSlaveGroup groups) st)

/-- Items the claim specifies for one (dayTimestamp, size) pair of the slave
table of contents whose group exists locally: a pair prune when the local
time entry is absent; a prune immediately followed by a fill when the slave
size is strictly greater than the local writtenSize; nothing otherwise (in
particular nothing when the sizes are equal). -/
def diffSpecSlaveEntry (g : String) (lg : Group) (p : Nat × Nat) : List WorkItem :=
  match lg.timeEntries.lookup p.1 with
  | none => [pruneOneItem g (some p.1)]
  | some lte =>
      if p.2 > lte.writtenSize then [pruneOneItem g (some p.1), fillItem g p.1]
      else []

/-- Items the claim specifies for one group of the slave table of contents:
a whole-group prune when the group is absent locally, otherwise the items of
each of its (dayTimestamp, size) pairs in order. -/
def diffSpecSlaveGroup (groups : List (String × Group)) (e : String × GroupToc) :
    List WorkItem :=
  match groups.lookup e.1 with
  | none => [{ command := some .pruneOne, groupName := some e.1 }]
  | some lg => e.2.flatMap (diffSpecSlaveEntry e.1 lg)

/-- Items the claim specifies for one local (dayTimestamp, timeEntry) pair:
one fill when its writtenSize strictly exceeds the recorded slave size, or
when it is absent from the slave table of contents with writtenSize greater
than 0; nothing otherwise (in particular nothing when the sizes are
equal). -/
def diffSpecLocalEntry (toc : Toc) (g : String) (q : Nat × TimeEntry) : List WorkItem :=
  match (toc.lookup g).bind (fun gt => gt.lookup q.1) with
  | some size => if q.2.writtenSize > size then [fillItem g q.1] else []
  | none => if q.2.writtenSize > 0 then [fillItem g q.1] else []

/-- Items the claim specifies for one local group: the items of each of its
(dayTimestamp, timeEntry) pairs in order. -/
def diffSpecLocalGroup (toc : Toc) (e : String × Group) : List WorkItem :=
  e.2.timeEntries.flatMap (diffSpecLocalEntry toc e.1)

/-- Statement of the diff algorithm as the claim words it, for comparison
with the embedded scheduler: the items of every group of the slave table of
contents in order, followed by the items of every local group in order. -/
def diffSpec (toc : Toc) (groups : List (String × Group)) : List WorkItem :=
  toc.flatMap (diffSpecSlaveGroup groups) ++ groups.flatMap (diffSpecLocalGroup toc)

/-- Time entry keys of the fill items of a work item list, in order. -/
def fillTargets (l : List WorkItem) : List (String × Nat) :=
  l.filterMap (fun it =>
    if it.command == some WorkCommand.fill then it.timeEntry else none)

/-- Embedding of the property deletion performed by
processNextReplicationCommand before dispatching a work item: the statement
(delete details.command) removes the command property, after which reading it
yields undefined. -/
def dispatchWorkItem (details : WorkItem) : WorkItem :=
  { details with command := none }

/-- Effects of cleanup: decReadOperations calls issued (by time entry key)
and work item callbacks invoked (by callback identifier). -/
structure CleanupEffects where
  decs : List (String × Nat) := []
  calls : List Nat := []
  deriving Repr, DecidableEq

/-- Embedding of cleanupWorkItem from replica_slave.js: a second cleanup of
the same item is a no-op via the cleaned flag; otherwise the item is marked
cleaned, decReadOperations is issued when the command property equals
FILL_COMMAND, and the callback is invoked when present. -/
def cleanupWorkItem (details : WorkItem) : WorkItem × CleanupEffects :=
  if details.cleaned then (details, {})
  else
    ({ details with cleaned := true },
     { decs := if details.command = some .fill then details.timeEntry.toList else [],
       calls := details.callback.toList })

/-- Embedding of cleanupWorkQueue from replica_slave.js: empty the queue and
the current work item slot, then clean every drained item in order (queued
items first, then the current item). -/
def cleanupWorkQueue (workQueue : List WorkItem) (currentWorkItem : Option WorkItem) :
    List WorkItem × Option WorkItem × CleanupEffects :=
  ([], none,
   (workQueue ++ currentWorkItem.toList).foldl
     (fun acc it =>
       { decs := acc.decs ++ (cleanupWorkItem it).2.decs,
         calls := acc.calls ++ (cleanupWorkItem it).2.calls })
     {})

/-- Deletion of one day timestamp from one group of the table of contents
mirror. -/
def deleteTocDst (toc : Toc) (g : String) (dst : Nat) : Toc :=
  toc.map (fun e => if e.1 = g then (e.1, e.2.filter (fun p => p.1 ≠ dst)) else e)

/-- Deletion of a whole group from the table of contents mirror. -/
def deleteTocGroup (toc : Toc) (g : String) : Toc :=
  toc.filter (fun e => e.1 ≠ g)

/-- Embedding of pruneOne from replica_slave.js: read the groupName property
of the work item (coerced to the key "undefined" when the property is
absent); with a day timestamp, send removeOne and delete the pair from the
mirror, otherwise send remove and delete the group key from the mirror.
Returns the updated mirror and the message written. -/
def pruneOne (toc : Toc) (details : WorkItem) : Toc × Message :=
  match details.dayTimestamp with
  | some d =>
      (deleteTocDst toc (jsKey details.groupName) d,
       { command := .removeOne, group := details.groupName, dayTimestamp := some d })
  | none =>
      (deleteTocGroup toc (jsKey details.groupName),
       { command := .remove, group := details.groupName })

/-- Embedding of the mirror update of pruneAll from replica_slave.js: collect
every day timestamp of the mirrored group strictly below the bound, delete
them all from the mirror, and return them in collection order
(pruneNextTimestamp afterwards sends one removeOne per element in pop order,
awaiting an ok reply before the next). -/
def pruneAllMirror (toc : Toc) (details : WorkItem) : Toc × List Nat :=
  match toc.lookup (jsKey details.group) with
  | some groupOnReplica =>
      let toPrune := (groupOnReplica.map Prod.fst).filter
        (fun dst => match details.dayTimestamp with
                    | some d => dst < d
                    | none => false)
      (toc.map (fun e =>
         if e.1 = jsKey details.group then
           (e.1, e.2.filter (fun p => ¬ toPrune.contains p.1))
         else e),
       toPrune)
  | none => (toc, [])

/-- Embedding of the remove event handler onRemoveFromOurDatabase from
replica_slave.js: outside the READY state (or when disconnected) nothing is
enqueued; in READY a truthy day timestamp enqueues a PRUNE_ALL item and a
falsy one enqueues a PRUNE_ONE item, both storing the group name under the
property named group. -/
def onRemoveFromOurDatabase (connected : Bool) (state : SessionState) (st : SyncState)
    (groupName : String) (dayTimestamp : Option Nat) : SyncState :=
  if ¬ connected then st
  else if state = .ready then
    if jsTruthy dayTimestamp then
      addToWorkQueue st
        { command := some .pruneAll, group := some groupName, dayTimestamp := dayTimestamp } none
    else
      addToWorkQueue st { command := some .pruneOne, group := some groupName } none
  else st

/-- Embedding of the adding event handler onAddingToOurDatabase from
replica_slave.js.  The record size is precomputed by
database.calculateRecordSize (database.js is not among the sources) and is
passed in.  Returns the new replicator state and whether the done callback
was invoked immediately (outside READY) instead of being attached to the
queued fill item. -/
def onAddingToOurDatabase (connected : Bool) (state : SessionState) (st : SyncState)
    (groupName : String) (dayTimestamp : Nat) (bufferSizes : List Nat) (recordSize : Nat)
    (done : Nat) : SyncState × Bool :=
  if ¬ connected then (st, true)
  else if state = .ready then
    let st1 := { st with incs := st.incs ++ [(groupName, dayTimestamp)] }
    (addToWorkQueue st1
      { command := some .fill, groupName := some groupName, dayTimestamp := some dayTimestamp,
        timeEntry := some (groupName, dayTimestamp), dataBuffers := some bufferSizes,
        size := some recordSize } (some done), false)
  else (st, true)

/-- Result of fillBySendingBuffers: the add message written, the advanced
opid counter, and the updated slave mirror size of the target time entry. -/
structure BufferFillResult where
  message : Message
  nextOpId : Nat
  mirrorSize : Nat
  deriving Repr, DecidableEq

/-- Embedding of fillBySendingBuffers from replica_slave.js (state READY):
send one add command whose size is the total length of the data buffers and
whose opid is the current nextOpId, increment nextOpId, and advance the
mirror size by the precomputed record size. -/
def fillBySendingBuffers (nextOpId : Nat) (groupName : String) (dayTimestamp : Nat)
    (dataBuffers : List Nat) (size : Nat) (mirrorSize : Nat) : BufferFillResult :=
  let message : Message :=
    { command := .add, group := some groupName,
      timestamp := some (dayTimestamp * 24 * 60 * 60), size := some dataBuffers.sum,
      opid := some nextOpId }
  { message := message,
    nextOpId := nextOpId + 1,
    mirrorSize := mirrorSize + size }

/-- Embedding of handleCheckResult from replica_slave.js: an ok reply to a
results command resets nextOpId to 0 and continues; any other reply
disconnects.  Returns the new nextOpId and whether the session disconnected.
The reply handlers dataFileFullyStreamed and
handleCheckResultAfterSendingDataFileRecord reset nextOpId identically. -/
def handleCheckResult (nextOpId : Nat) (replyStatus : String) : Nat × Bool :=
  if replyStatus = "ok" then (0, false) else (nextOpId, true)

/-- Continuation chosen by fillByStreamingDataFile. -/
inductive StreamOutcome
  | streamFrom (offset : Nat)
  | disconnected
  | abandoned
  deriving Repr, DecidableEq

/-- Result of fillByStreamingDataFile: messages written, the mirror size of
the target time entry afterwards, and the continuation taken. -/
structure StreamFillResult where
  sent : List Message := []
  mirrorSize : Nat
  outcome : StreamOutcome
  deriving Repr, DecidableEq

/-- Embedding of fillByStreamingDataFile from replica_slave.js (states
BACKGROUND_SYNCHRONIZING and LOCKED_SYNCHRONIZING).  The initial
timeEntry.get at the slave mirror size either succeeds (getFailed false) or
fails; on failure a removeOne for the group and day timestamp is written and
the reply awaited: an ok reply resets the mirror size to 0 and restarts
streaming (startStreamingDataFile reads from the mirror size, now 0), any
other reply disconnects.  On success streaming starts at the mirror size. -/
def fillByStreamingDataFile (connected : Bool) (groupName : String) (dayTimestamp : Nat)
    (mirrorSize : Nat) (getFailed : Bool) (removeOneReplyStatus : String) : StreamFillResult :=
  if ¬ connected then { mirrorSize := mirrorSize, outcome := .abandoned }
  else if getFailed then
    let msg : Message :=
      { command := .removeOne, group := some groupName, dayTimestamp := some dayTimestamp }
    if removeOneReplyStatus = "ok" then
      { sent := [msg], mirrorSize := 0, outcome := .streamFrom 0 }
    else
      { sent := [msg], mirrorSize := mirrorSize, outcome := .disconnected }
  else
    { mirrorSize := mirrorSize, outcome := .streamFrom mirrorSize }

/-- Events affecting the nextOpId counter of one replica slave session: an
add command written to the slave (fillBySendingBuffers or the streaming loop
of startStreamingDataFile) or a reply to a results command. -/
inductive OpEvent
  | sendAdd
  | resultsReply (status : String)
  deriving Repr, DecidableEq

/-- One step of the nextOpId discipline: an add takes the current counter as
its opid and increments the counter; a results reply is processed by
handleCheckResult.  Returns the new counter and the opids emitted. -/
def opidStep (nextOpId : Nat) : OpEvent → Nat × List Nat
  | .sendAdd => (nextOpId + 1, [nextOpId])
  | .resultsReply s => ((handleCheckResult nextOpId s).1, [])

/-- Opids assigned to add commands over a sequence of session events. -/
def opidsEmitted : Nat → List OpEvent → List Nat
  | _, [] => []
  | n, e :: es => (opidStep n e).2 ++ opidsEmitted (opidStep n e).1 es

/-- Path of the time entry stored under a key of a time entry map (empty when
the key is absent; used only under a hypothesis that the key is present). -/
def entryPath (l : List (Nat × TimeEntry)) (k : Nat) : String :=
  ((l.lookup k).map TimeEntry.path).getD ""

/-- Concrete group with two time entries, used for counterexamples. -/
def exampleGroupTwoEntries : Group :=
  { name := "g", path := "p", timeEntryCount := 2,
    timeEntries := [(1, {}), (2, {})] }

/-- Concrete group with one time entry at day timestamp 5, used for
counterexamples. -/
def exampleGroupEntryAtFive : Group :=
  { name := "g", path := "db/g", timeEntryCount := 1,
    timeEntries := [(5, { path := "db/g/5" })] }

/-- Concrete group with three time entries, used for witnesses. -/
def exampleGroupThreeEntries : Group :=
  { name := "g", path := "db/g", timeEntryCount := 3,
    timeEntries := [(1, { path := "db/g/1" }), (5, { path := "db/g/5" }),
      (9, { path := "db/g/9" })] }

/-
Theorems.  Helper lemmas come first, then one theorem per claim of the
specification (each annotated with its claim id), with witness and
counterexample theorems where required.
-/

/-- Helper: a lower bound for every opid emitted while no ok results reply
occurs. -/
theorem opidsEmitted_lower_bound :
    ∀ (es : List OpEvent) (n m : Nat),
      (∀ s, OpEvent.resultsReply s ∈ es → s ≠ "ok") →
      m ∈ opidsEmitted n es → n ≤ m := by
  intro es
  induction es with
  | nil => intro n m _ hm; simp [opidsEmitted] at hm
  | cons e es ih =>
      intro n m h hm
      cases e with
      | sendAdd =>
          simp only [opidsEmitted, opidStep, List.cons_append, List.nil_append,
            List.mem_cons] at hm
          rcases hm with rfl | hm
          · exact Nat.le_refl m
          · have := ih (n + 1) m (fun s hs => h s (List.mem_cons_of_mem _ hs)) hm
            omega
      | resultsReply s =>
          have hs : s ≠ "ok" := h s (List.mem_cons_self _ _)
          simp only [opidsEmitted, opidStep, handleCheckResult, if_neg hs,
            List.nil_append] at hm
          exact ih n m (fun t ht => h t (List.mem_cons_of_mem _ ht)) hm

/-- Helper: opids emitted while no ok results reply occurs are pairwise
distinct. -/
theorem opidsEmitted_nodup :
    ∀ (es : List OpEvent) (n : Nat),
      (∀ s, OpEvent.resultsReply s ∈ es → s ≠ "ok") →
      (opidsEmitted n es).Nodup := by
  intro es
  induction es with
  | nil => intro n _; simp [opidsEmitted]
  | cons e es ih =>
      intro n h
      cases e with
      | sendAdd =>
          simp only [opidsEmitted, opidStep, List.cons_append, List.nil_append]
          refine List.nodup_cons.2 ⟨fun hmem => ?_, ih (n + 1) (fun s hs => h s (List.mem_cons_of_mem _ hs))⟩
          have := opidsEmitted_lower_bound es (n + 1) n (fun s hs => h s (List.mem_cons_of_mem _ hs)) hmem
          omega
      | resultsReply s =>
          have hs : s ≠ "ok" := h s (List.mem_cons_self _ _)
          simp only [opidsEmitted, opidStep, handleCheckResult, if_neg hs, List.nil_append]
          exact ih n (fun t ht => h t (List.mem_cons_of_mem _ ht))

/-- C4: each add command sent to the slave takes opid nextOpId, which
advances by one per add and resets to 0 on every results reply with status
ok (handleCheckResult); consequently all opids assigned while no results
reply with status ok arrives are pairwise distinct. -/
theorem opid_uniqueness_between_results (n : Nat) (g : String) (d : Nat) (bufs : List Nat)
    (sz ms : Nat) (es : List OpEvent)
    (h : ∀ s, OpEvent.resultsReply s ∈ es → s ≠ "ok") :
    (fillBySendingBuffers n g d bufs sz ms).message.opid = some n ∧
    (fillBySendingBuffers n g d bufs sz ms).nextOpId = n + 1 ∧
    (handleCheckResult n "ok").1 = 0 ∧
    opidStep n OpEvent.sendAdd = (n + 1, [n]) ∧
    (opidsEmitted n es).Nodup :=
  ⟨rfl, rfl, rfl, rfl, opidsEmitted_nodup es n h⟩

/-- Witness for C4 at a concrete event sequence containing a non-ok results
reply but no ok reply. -/
theorem opid_uniqueness_between_results_witness :
    (opidsEmitted 0 [OpEvent.sendAdd, OpEvent.sendAdd,
      OpEvent.resultsReply "error", OpEvent.sendAdd]).Nodup :=
  (opid_uniqueness_between_results 0 "g" 1 [] 0 0 _ (by
    intro s hs
    simp only [List.mem_cons, List.not_mem_nil, or_false] at hs
    rcases hs with hs | hs | hs | hs <;> simp_all)).2.2.2.2

/-- C3: during a streaming fill, a failing initial timeEntry.get at the
slave mirror size makes the session send removeOne for the group and day
timestamp and await the reply; an ok reply resets the mirror size to 0 and
restarts streaming from offset 0, any other reply disconnects without
retrying, and a successful get streams from the current mirror size without
sending anything. -/
theorem fillByStreamingDataFile_corruptRecovery (g : String) (dst ms : Nat) (r : String) :
    (fillByStreamingDataFile true g dst ms true "ok" =
      { sent := [{ command := .removeOne, group := some g, dayTimestamp := some dst }],
        mirrorSize := 0, outcome := .streamFrom 0 }) ∧
    (r ≠ "ok" →
      fillByStreamingDataFile true g dst ms true r =
        { sent := [{ command := .removeOne, group := some g, dayTimestamp := some dst }],
          mirrorSize := ms, outcome := .disconnected }) ∧
    (fillByStreamingDataFile true g dst ms false r =
      { mirrorSize := ms, outcome := .streamFrom ms }) :=
  ⟨by simp [fillByStreamingDataFile],
   fun hr => by simp [fillByStreamingDataFile, hr],
   by simp [fillByStreamingDataFile]⟩

/-- Witness for C3 at a concrete non-ok reply. -/
theorem fillByStreamingDataFile_corruptRecovery_witness :
    fillByStreamingDataFile true "g" 7 123 true "error" =
      { sent := [{ command := .removeOne, group := some "g", dayTimestamp := some 7 }],
        mirrorSize := 123, outcome := .disconnected } :=
  (fillByStreamingDataFile_corruptRecovery "g" 7 123 "error").2.1 (by decide)

/-- C6: addToWorkQueue grows the queue by the given item with the callback
attached, leaving the counter unchanged, except for a fill item carrying
data buffers: then the counter increments, and on reaching the threshold it
resets to 0 and a CHECK_RESULTS item carrying the callback is appended right
after the fill item (which then keeps its own callback property). -/
theorem addToWorkQueue_batching (st : SyncState) (it : WorkItem) (cb : Option Nat)
    (_h : st.resultCheckCounter < st.resultCheckThreshold) :
    (it.command = some WorkCommand.fill ∧ it.dataBuffers.isSome →
      (st.resultCheckCounter + 1 = st.resultCheckThreshold →
        addToWorkQueue st it cb =
          { st with
            workQueue := st.workQueue ++
              [it, { command := some .checkResults, callback := cb }],
            resultCheckCounter := 0 }) ∧
      (st.resultCheckCounter + 1 < st.resultCheckThreshold →
        addToWorkQueue st it cb =
          { st with
            workQueue := st.workQueue ++ [{ it with callback := cb }],
            resultCheckCounter := st.resultCheckCounter + 1 })) ∧
    (¬ (it.command = some WorkCommand.fill ∧ it.dataBuffers.isSome) →
      addToWorkQueue st it cb =
        { st with workQueue := st.workQueue ++ [{ it with callback := cb }] }) := by
  constructor
  · intro hf
    constructor
    · intro he
      simp only [addToWorkQueue, if_pos hf]
      rw [if_pos (by omega)]
    · intro hlt
      simp only [addToWorkQueue, if_pos hf]
      rw [if_neg (by omega)]
  · intro hn
    simp only [addToWorkQueue, if_neg hn]

/-- Witness for C6 at a concrete threshold-reaching fill with buffers. -/
theorem addToWorkQueue_batching_witness :
    addToWorkQueue { resultCheckThreshold := 2, resultCheckCounter := 1 }
        { command := some .fill, dataBuffers := some [3] } (some 9) =
      { resultCheckThreshold := 2, resultCheckCounter := 0,
        workQueue := [{ command := some .fill, dataBuffers := some [3] },
                      { command := some .checkResults, callback := some 9 }] } :=
  ((addToWorkQueue_batching { resultCheckThreshold := 2, resultCheckCounter := 1 }
      { command := some .fill, dataBuffers := some [3] } (some 9) (by decide)).1
    ⟨rfl, rfl⟩).1 (by decide)

/-- C2: demonstration of the code bug.  processNextReplicationCommand deletes
the command property before dispatching a work item, so cleanupWorkItem,
which issues decReadOperations only when the command property equals
FILL_COMMAND, never issues the release for a fill item that was dispatched
(completed normally or in flight at connection close); only fill items still
sitting in the queue are released when the queue is drained.  The first
conjunct shows cleanup of a dispatched fill releasing nothing although it
still references its time entry; the third shows cleanup of the identical
undispatched item releasing it exactly once. -/
theorem cleanupWorkItem_skips_dec_after_dispatch :
    (cleanupWorkItem (dispatchWorkItem (fillItem "a" 3))).2 =
      { decs := [], calls := [] } ∧
    (dispatchWorkItem (fillItem "a" 3)).timeEntry = some ("a", 3) ∧
    (cleanupWorkItem (fillItem "a" 3)).2 = { decs := [("a", 3)], calls := [] } :=
  ⟨rfl, rfl, rfl⟩

/-- C5: demonstration of the code bug.  onRemoveFromOurDatabase enqueues the
whole-group prune item with the group name stored under the property named
group, but pruneOne reads the property named groupName, which is undefined:
the remove command is sent without a group field and the group (here foo)
survives in the table of contents mirror, violating the source assertion
that the mirrored group exists. -/
theorem pruneOne_group_field_mismatch :
    (onRemoveFromOurDatabase true .ready { resultCheckThreshold := 500 } "foo" none).workQueue =
      [{ command := some .pruneOne, group := some "foo" }] ∧
    pruneOne [("foo", [(1, 100)])] { command := some .pruneOne, group := some "foo" } =
      ([("foo", [(1, 100)])], { command := .remove }) ∧
    ([("foo", [(1, 100)])] : Toc).lookup "foo" = some [(1, 100)] := by
  refine ⟨rfl, ?_, rfl⟩
  simp [pruneOne, deleteTocGroup, jsKey]

/-- C8: demonstration of the code bug.  The character loop of
validateGroupName is bounded by the misspelled property name.legth, so it
never runs: the name a! passes validation although it contains a character
outside [A-Za-z0-9_.-], contradicting the specified charset. -/
theorem validateGroupName_dead_loop :
    validateGroupName "a!" = true ∧ validGroupNameSpec "a!" = false ∧
    validateGroupNameChar '!' = false := by
  refine ⟨rfl, by decide, by decide⟩

/-- C9 (amended): Group.remove with no day timestamp renames the group
directory to a hidden name, schedules exactly that directory for background
recursive deletion, and closes the group, which resets timeEntryCount to 0,
clears the time entry map and closes every entry. -/
theorem Group.remove_whole_group (g : Group) :
    g.remove none =
      { group := { g with timeEntryCount := 0, timeEntries := [], closed := true },
        renamed := [(g.path, renameToHidden g.path)],
        closedEntries := g.timeEntries.map Prod.fst,
        scheduledDeletes := [renameToHidden g.path] } := by
  simp [Group.remove, Group.close, jsTruthy]

/-- C9: counterexample to the claim as stated.  A group holding two time
entries has timeEntryCount 2 before the call and 0 after it, because the
close call inside the whole-group branch resets the counter. -/
theorem Group.remove_whole_group_count_cex :
    ((exampleGroupTwoEntries.remove none).group.timeEntryCount = 0) ∧
    ¬ ((exampleGroupTwoEntries.remove none).group.timeEntryCount =
        exampleGroupTwoEntries.timeEntryCount) := by
  refine ⟨rfl, by decide⟩

/-- C10: Group.removeOne at a day timestamp with no stored time entry
invokes the callback with no error and changes nothing: the group object is
returned untouched and no rename, close or background deletion happens. -/
theorem Group.removeOne_absent (g : Group) (d : Nat)
    (h : g.timeEntries.lookup d = none) :
    g.removeOne d = { group := g } := by
  simp [Group.removeOne, h]

/-- Helper: fillTargets distributes over append. -/
theorem fillTargets_append (a b : List WorkItem) :
    fillTargets (a ++ b) = fillTargets a ++ fillTargets b := by
  simp [fillTargets]

/-- Helper: fillTargets distributes over flatMap. -/
theorem fillTargets_flatMap {α : Type} (f : α → List WorkItem) (l : List α) :
    fillTargets (l.flatMap f) = l.flatMap (fun x => fillTargets (f x)) := by
  induction l with
  | nil => rfl
  | cons x xs ih => simp [List.flatMap_cons, fillTargets_append, ih]

/-- Helper: a fold whose step only appends to the work queue and the inc log
appends the concatenation of the per-element contributions. -/
theorem foldl_schedule_hom {α : Type} (f : SyncState → α → SyncState)
    (q : α → List WorkItem) (r : α → List (String × Nat))
    (h : ∀ st x, f st x =
      { st with workQueue := st.workQueue ++ q x, incs := st.incs ++ r x }) :
    ∀ (l : List α) (st : SyncState),
      l.foldl f st =
        { st with workQueue := st.workQueue ++ l.flatMap q,
                  incs := st.incs ++ l.flatMap r } := by
  intro l
  induction l with
  | nil => intro st; simp
  | cons x xs ih =>
      intro st
      rw [List.foldl_cons, h, ih]
      simp [List.append_assoc]

/-- Helper: the first-pass inner loop of the scheduler appends exactly the
items of the claim for one slave pair, with one incReadOperations call per
fill item appended. -/
theorem scheduleSyncEntry_eq (g : String) (lg : Group) (st : SyncState) (p : Nat × Nat) :
    scheduleSyncEntry g lg st p =
      { st with workQueue := st.workQueue ++ diffSpecSlaveEntry g lg p,
                incs := st.incs ++ fillTargets (diffSpecSlaveEntry g lg p) } := by
  cases hl : lg.timeEntries.lookup p.1 with
  | none => simp [scheduleSyncEntry, diffSpecSlaveEntry, hl, addToWorkQueue, pruneOneItem, fillTargets]
  | some lte =>
      simp only [scheduleSyncEntry, diffSpecSlaveEntry, hl, gt_iff_lt]
      by_cases hw : lte.writtenSize < p.2
      · simp only [if_pos hw]
        simp [addToWorkQueue, pruneOneItem, fillItem, fillTargets, List.append_assoc]
      · simp only [if_neg hw]
        simp [fillTargets]

/-- Helper: the first-pass outer loop of the scheduler appends exactly the
items of the claim for one slave group. -/
theorem scheduleSyncSlaveGroup_eq (groups : List (String × Group)) (st : SyncState)
    (e : String × GroupToc) :
    scheduleSyncSlaveGroup groups st e =
      { st with workQueue := st.workQueue ++ diffSpecSlaveGroup groups e,
                incs := st.incs ++ fillTargets (diffSpecSlaveGroup groups e) } := by
  cases hg : groups.lookup e.1 with
  | none => simp [scheduleSyncSlaveGroup, diffSpecSlaveGroup, hg, addToWorkQueue, fillTargets]
  | some lg =>
      simp only [scheduleSyncSlaveGroup, diffSpecSlaveGroup, hg]
      rw [foldl_schedule_hom (scheduleSyncEntry e.1 lg) (diffSpecSlaveEntry e.1 lg)
        (fun p => fillTargets (diffSpecSlaveEntry e.1 lg p))
        (fun st p => scheduleSyncEntry_eq e.1 lg st p)]
      rw [fillTargets_flatMap]

/-- Helper: the second-pass inner loop of the scheduler appends exactly the
items of the claim for one local pair, with one incReadOperations call per
fill item appended. -/
theorem scheduleSyncLocalEntry_eq (toc : Toc) (g : String) (st : SyncState)
    (q : Nat × TimeEntry) :
    scheduleSyncLocalEntry toc g st q =
      { st with workQueue := st.workQueue ++ diffSpecLocalEntry toc g q,
                incs := st.incs ++ fillTargets (diffSpecLocalEntry toc g q) } := by
  cases hl : (toc.lookup g).bind (fun gt => gt.lookup q.1) with
  | none =>
      simp only [scheduleSyncLocalEntry, diffSpecLocalEntry, hl]
      by_cases hw : q.2.writtenSize > 0
      · simp only [if_pos hw]
        simp [addToWorkQueue, fillItem, fillTargets]
      · simp only [if_neg hw]
        simp [fillTargets]
  | some size =>
      simp only [scheduleSyncLocalEntry, diffSpecLocalEntry, hl]
      by_cases hw : q.2.writtenSize > size
      · simp only [if_pos hw]
        simp [addToWorkQueue, fillItem, fillTargets]
      · simp only [if_neg hw]
        simp [fillTargets]

/-- Helper: the second-pass outer loop of the scheduler appends exactly the
items of the claim for one local group. -/
theorem scheduleSyncLocalGroup_eq (toc : Toc) (st : SyncState) (e : String × Group) :
    scheduleSyncLocalGroup toc st e =
      { st with workQueue := st.workQueue ++ diffSpecLocalGroup toc e,
                incs := st.incs ++ fillTargets (diffSpecLocalGroup toc e) } := by
  simp only [scheduleSyncLocalGroup, diffSpecLocalGroup]
  rw [foldl_schedule_hom (scheduleSyncLocalEntry toc e.1) (diffSpecLocalEntry toc e.1)
    (fun q => fillTargets (diffSpecLocalEntry toc e.1 q))
    (fun st q => scheduleSyncLocalEntry_eq toc e.1 st q)]
  rw [fillTargets_flatMap]

/-- C1: scheduleSlaveSynchronizationCommands enqueues exactly the items of
the claim, in order: per slave group absent locally one whole-group prune;
per slave pair without a local time entry one pair prune; per pair present
on both sides with the slave size strictly greater than the local
writtenSize one prune immediately followed by one fill; per local pair whose
writtenSize strictly exceeds the recorded slave size, or absent from the
slave table of contents with positive writtenSize, one fill; nothing for
pairs with equal sizes.  The result check counter is untouched and one
incReadOperations call is issued per fill enqueued. -/
theorem scheduleSlaveSynchronizationCommands_enqueues_diff (toc : Toc)
    (groups : List (String × Group)) (st : SyncState) :
    scheduleSlaveSynchronizationCommands toc groups st =
      { st with workQueue := st.workQueue ++ diffSpec toc groups,
                incs := st.incs ++ fillTargets (diffSpec toc groups) } := by
  simp only [scheduleSlaveSynchronizationCommands, diffSpec]
  rw [foldl_schedule_hom (scheduleSyncSlaveGroup groups) (diffSpecSlaveGroup groups)
    (fun e => fillTargets (diffSpecSlaveGroup groups e))
    (fun st e => scheduleSyncSlaveGroup_eq groups st e)]
  rw [foldl_schedule_hom (scheduleSyncLocalGroup toc) (diffSpecLocalGroup toc)
    (fun e => fillTargets (diffSpecLocalGroup toc e))
    (fun st e => scheduleSyncLocalGroup_eq toc st e)]
  simp [fillTargets_append, fillTargets_flatMap, List.append_assoc]

/-- Witness for C10 at a concrete group and absent day timestamp. -/
theorem Group.removeOne_absent_witness :
    Group.removeOne { name := "g", timeEntries := [(3, {})], timeEntryCount := 1 } 5 =
      { group := { name := "g", timeEntries := [(3, {})], timeEntryCount := 1 } } :=
  Group.removeOne_absent { name := "g", timeEntries := [(3, {})], timeEntryCount := 1 } 5 (by decide)

/-- Helper: lookup of a present key after the head. -/
theorem lookup_cons_ne (a1 : Nat) (a2 : TimeEntry) (l : List (Nat × TimeEntry)) (k : Nat)
    (h : k ≠ a1) : ((a1, a2) :: l).lookup k = l.lookup k := by
  simp [List.lookup, show (k == a1) = false from beq_eq_false_iff_ne.2 h]

/-- Helper: lookup is unaffected by filtering another key out. -/
theorem lookup_filter_ne (l : List (Nat × TimeEntry)) (k k' : Nat) (h : k' ≠ k) :
    (l.filter (fun p => p.1 ≠ k)).lookup k' = l.lookup k' := by
  induction l with
  | nil => rfl
  | cons a l ih =>
      obtain ⟨a1, a2⟩ := a
      rw [List.filter_cons]
      by_cases ha : a1 = k
      · rw [if_neg (by simp [ha]), ih,
          lookup_cons_ne a1 a2 l k' (fun he => h (he.trans ha))]
      · rw [if_pos (by simp [ha])]
        by_cases hk : k' = a1
        · subst hk
          simp [List.lookup]
        · rw [lookup_cons_ne a1 a2 _ k' hk, lookup_cons_ne a1 a2 _ k' hk, ih]

/-- Helper: keys of a filtered map. -/
theorem map_fst_filter_ne (l : List (Nat × TimeEntry)) (k : Nat) :
    (l.filter (fun p => p.1 ≠ k)).map Prod.fst = (l.map Prod.fst).filter (fun x => x ≠ k) := by
  induction l with
  | nil => rfl
  | cons a l ih =>
      rw [List.filter_cons, List.map_cons, List.filter_cons]
      by_cases ha : a.1 = k
      · rw [if_neg (by simp [ha]), if_neg (by simp [ha]), ih]
      · rw [if_pos (by simp [ha]), if_pos (by simp [ha]), List.map_cons, ih]

/-- Helper: every present key has a lookup value. -/
theorem lookup_eq_some_of_mem_keys (l : List (Nat × TimeEntry)) (k : Nat)
    (h : k ∈ l.map Prod.fst) : ∃ te, l.lookup k = some te := by
  induction l with
  | nil => simp at h
  | cons a l ih =>
      obtain ⟨a1, a2⟩ := a
      by_cases hk : k = a1
      · subst hk
        exact ⟨a2, by simp [List.lookup]⟩
      · rw [lookup_cons_ne a1 a2 l k hk]
        refine ih ?_
        simpa [hk] using h

/-- Helper: aggregate effect of the removal loop of Group.prototype.remove
over a list of distinct present keys: the looped-over entries leave the map,
the counter drops by their number, and one rename, close and background
deletion is recorded per key in order. -/
theorem removeLoop_fold_eq :
    ∀ (ks : List Nat) (st : RemoveLoopState),
      (st.group.timeEntries.map Prod.fst).Nodup →
      ks.Nodup →
      (∀ k ∈ ks, k ∈ st.group.timeEntries.map Prod.fst) →
      ks.foldl removeLoopStep st =
        { group := { st.group with
            timeEntries := st.group.timeEntries.filter (fun p => p.1 ∉ ks),
            timeEntryCount := st.group.timeEntryCount - ks.length },
          renamed := st.renamed ++ ks.map (fun k =>
            (entryPath st.group.timeEntries k,
             renameToHidden (entryPath st.group.timeEntries k))),
          closedEntries := st.closedEntries ++ ks,
          dirsToRemove := st.dirsToRemove ++ ks.map (fun k =>
            renameToHidden (entryPath st.group.timeEntries k)) } := by
  intro ks
  induction ks with
  | nil =>
      intro st _ _ _
      simp
  | cons k ks ih =>
      intro st hnd hks hsub
      obtain ⟨te, hte⟩ := lookup_eq_some_of_mem_keys _ _ (hsub k (List.mem_cons_self _ _))
      have hknotks : k ∉ ks := (List.nodup_cons.1 hks).1
      have hstep : removeLoopStep st k =
          { group := { st.group with
              timeEntries := st.group.timeEntries.filter (fun p => p.1 ≠ k),
              timeEntryCount := st.group.timeEntryCount - 1 },
            renamed := st.renamed ++ [(te.path, renameToHidden te.path)],
            closedEntries := st.closedEntries ++ [k],
            dirsToRemove := st.dirsToRemove ++ [renameToHidden te.path] } := by
        simp [removeLoopStep, hte]
      have hkeys : (st.group.timeEntries.filter (fun p => p.1 ≠ k)).map Prod.fst =
          (st.group.timeEntries.map Prod.fst).filter (fun x => x ≠ k) :=
        map_fst_filter_ne _ _
      have hnd' : ((st.group.timeEntries.filter (fun p => p.1 ≠ k)).map Prod.fst).Nodup := by
        rw [hkeys]
        exact (List.filter_sublist _).nodup hnd
      have hsub' : ∀ k' ∈ ks,
          k' ∈ (st.group.timeEntries.filter (fun p => p.1 ≠ k)).map Prod.fst := by
        intro k' hk'
        rw [hkeys]
        refine List.mem_filter.2 ⟨hsub k' (List.mem_cons_of_mem _ hk'), ?_⟩
        simp only [ne_eq, decide_eq_true_eq]
        exact fun he => hknotks (he ▸ hk')
      have hpath : ∀ k' ∈ ks,
          entryPath (st.group.timeEntries.filter (fun p => p.1 ≠ k)) k' =
            entryPath st.group.timeEntries k' := by
        intro k' hk'
        have hne : k' ≠ k := fun he => hknotks (he ▸ hk')
        unfold entryPath
        rw [lookup_filter_ne _ _ _ hne]
      rw [List.foldl_cons, hstep, ih _ hnd' (List.nodup_cons.1 hks).2 hsub']
      have hmap1 : ks.map (fun k' =>
          (entryPath (st.group.timeEntries.filter (fun p => p.1 ≠ k)) k',
           renameToHidden (entryPath (st.group.timeEntries.filter (fun p => p.1 ≠ k)) k'))) =
          ks.map (fun k' =>
          (entryPath st.group.timeEntries k',
           renameToHidden (entryPath st.group.timeEntries k'))) :=
        List.map_congr_left (fun k' hk' => by rw [hpath k' hk'])
      have hmap2 : ks.map (fun k' =>
          renameToHidden (entryPath (st.group.timeEntries.filter (fun p => p.1 ≠ k)) k')) =
          ks.map (fun k' => renameToHidden (entryPath st.group.timeEntries k')) :=
        List.map_congr_left (fun k' hk' => by rw [hpath k' hk'])
      have hTE : (st.group.timeEntries.filter (fun p => p.1 ≠ k)).filter
            (fun p => p.1 ∉ ks) =
          st.group.timeEntries.filter (fun p => p.1 ∉ k :: ks) := by
        rw [List.filter_filter]
        refine List.filter_congr ?_
        intro a _
        by_cases h1 : a.1 = k <;> by_cases h2 : a.1 ∈ ks <;> simp [h1, h2]
      have hCNT : st.group.timeEntryCount - 1 - (ks.length : Int) =
          st.group.timeEntryCount - ((k :: ks).length : Int) := by
        rw [List.length_cons]
        omega
      have hent : entryPath st.group.timeEntries k = te.path := by
        simp [entryPath, hte]
      simp only [hmap1, hmap2, hTE, hCNT, hent, List.map_cons, List.append_assoc,
        List.singleton_append]

/-- Helper: entry paths of the filtered keys agree with paths of the
filtered entries when the keys are distinct. -/
theorem keys_filter_map_entryPath (l : List (Nat × TimeEntry)) (pred : Nat → Bool)
    (hnd : (l.map Prod.fst).Nodup) :
    ((l.map Prod.fst).filter pred).map (fun k => entryPath l k) =
      (l.filter (fun p => pred p.1)).map (fun p => p.2.path) := by
  induction l with
  | nil => rfl
  | cons a l ih =>
      obtain ⟨a1, a2⟩ := a
      have hnd2 : (a1 :: l.map Prod.fst).Nodup := by simpa using hnd
      have hnd' : (l.map Prod.fst).Nodup := (List.nodup_cons.1 hnd2).2
      have ha1 : a1 ∉ l.map Prod.fst := (List.nodup_cons.1 hnd2).1
      have hmap : ((l.map Prod.fst).filter pred).map (fun k => entryPath ((a1, a2) :: l) k) =
          ((l.map Prod.fst).filter pred).map (fun k => entryPath l k) := by
        refine List.map_congr_left ?_
        intro k hk
        have hkmem : k ∈ l.map Prod.fst := (List.mem_filter.1 hk).1
        have hne : k ≠ a1 := fun he => ha1 (he ▸ hkmem)
        unfold entryPath
        rw [lookup_cons_ne a1 a2 l k hne]
      rw [List.map_cons, List.filter_cons, List.filter_cons]
      by_cases hp : pred a1 = true
      · rw [if_pos (by exact hp), if_pos (by exact hp), List.map_cons, List.map_cons,
          hmap, ih hnd']
        congr 1
        simp [entryPath, List.lookup]
      · rw [if_neg (by exact hp), if_neg (by exact hp), hmap, ih hnd']

/-- Helper: keys of the entries kept by a key predicate. -/
theorem map_fst_filter_pred (l : List (Nat × TimeEntry)) (pred : Nat → Bool) :
    (l.map Prod.fst).filter pred = (l.filter (fun p => pred p.1)).map Prod.fst := by
  induction l with
  | nil => rfl
  | cons a l ih =>
      by_cases hp : pred a.1 = true <;> simp [List.filter_cons, hp, ih]

/-- C7 (amended): for every day timestamp d greater than 0 and a group with
distinct time entry keys, Group.remove destroys exactly the entries whose
day timestamp is strictly less than d: each is renamed to a hidden name,
closed, removed from the map with timeEntryCount decremented by one, and
scheduled for background recursive deletion; entries with day timestamp at
least d stay untouched, and the callback is invoked with no error.
Amendment forced by the counterexample: the source tests the day timestamp
for JavaScript truthiness, so d = 0 selects the whole-group removal branch
instead. -/
theorem Group.remove_strictly_below (g : Group) (d : Nat) (hd : 0 < d)
    (hnd : (g.timeEntries.map Prod.fst).Nodup) :
    g.remove (some d) =
      { group := { g with
          timeEntries := g.timeEntries.filter (fun p => ¬ p.1 < d),
          timeEntryCount := g.timeEntryCount -
            ((g.timeEntries.filter (fun p => p.1 < d)).length : Int) },
        renamed := (g.timeEntries.filter (fun p => p.1 < d)).map
          (fun p => (p.2.path, renameToHidden p.2.path)),
        closedEntries := (g.timeEntries.filter (fun p => p.1 < d)).map Prod.fst,
        scheduledDeletes := ((g.timeEntries.filter (fun p => p.1 < d)).map
          (fun p => renameToHidden p.2.path)).reverse } := by
  have hd0 : d ≠ 0 := Nat.pos_iff_ne_zero.mp hd
  have hks : ((g.timeEntries.map Prod.fst).filter (fun dts => dts < d)).Nodup :=
    (List.filter_sublist _).nodup hnd
  have hsub : ∀ k ∈ (g.timeEntries.map Prod.fst).filter (fun dts => dts < d),
      k ∈ g.timeEntries.map Prod.fst := fun k hk => (List.mem_filter.1 hk).1
  have hfold := removeLoop_fold_eq
    ((g.timeEntries.map Prod.fst).filter (fun dts => dts < d))
    { group := g } hnd hks hsub
  simp only [List.nil_append] at hfold
  have hkeep : g.timeEntries.filter
      (fun p => p.1 ∉ (g.timeEntries.map Prod.fst).filter (fun dts => dts < d)) =
      g.timeEntries.filter (fun p => ¬ p.1 < d) := by
    refine List.filter_congr ?_
    intro a ha
    have hmem : a.1 ∈ (g.timeEntries.map Prod.fst).filter (fun dts => dts < d) ↔
        a.1 < d := by
      constructor
      · intro h
        simpa using (List.mem_filter.1 h).2
      · intro h
        exact List.mem_filter.2 ⟨List.mem_map_of_mem Prod.fst ha, by simpa using h⟩
    simp [hmem]
  have hpaths := keys_filter_map_entryPath g.timeEntries (fun dts => dts < d) hnd
  have hkeysfil := map_fst_filter_pred g.timeEntries (fun dts => dts < d)
  have hlen : ((g.timeEntries.map Prod.fst).filter (fun dts => dts < d)).length =
      (g.timeEntries.filter (fun p => p.1 < d)).length := by
    rw [hkeysfil, List.length_map]
  have hdirs : ((g.timeEntries.map Prod.fst).filter (fun dts => dts < d)).map
      (fun k => renameToHidden (entryPath g.timeEntries k)) =
      (g.timeEntries.filter (fun p => p.1 < d)).map
        (fun p => renameToHidden p.2.path) := by
    have h2 := congrArg (List.map renameToHidden) hpaths
    simpa [List.map_map, Function.comp] using h2
  have hren : ((g.timeEntries.map Prod.fst).filter (fun dts => dts < d)).map
      (fun k => (entryPath g.timeEntries k, renameToHidden (entryPath g.timeEntries k))) =
      (g.timeEntries.filter (fun p => p.1 < d)).map
        (fun p => (p.2.path, renameToHidden p.2.path)) := by
    have h2 := congrArg (List.map (fun s => (s, renameToHidden s))) hpaths
    simpa [List.map_map, Function.comp] using h2
  unfold Group.remove
  rw [if_pos (show jsTruthy (some d) = true by simp [jsTruthy, hd0])]
  simp only [Option.getD_some, hfold, hkeep, hren, hdirs, hlen]
  simp only [hkeysfil]

/-- C7: counterexample to the claim as stated.  At day timestamp 0 the
source takes the whole-group branch (0 is falsy in JavaScript): the entry
stored at day timestamp 5, which the claim requires to stay untouched, is
dropped from the map. -/
theorem Group.remove_zero_cex :
    (exampleGroupEntryAtFive.remove (some 0)).group.timeEntries = [] ∧
    ¬ ((exampleGroupEntryAtFive.remove (some 0)).group.timeEntries =
        exampleGroupEntryAtFive.timeEntries) := by
  refine ⟨rfl, by decide⟩

/-- Witness for C7 at a concrete group and bound. -/
theorem Group.remove_strictly_below_witness :
    exampleGroupThreeEntries.remove (some 6) =
      { group :=
          { name := "g", path := "db/g", timeEntryCount := 1,
            timeEntries := [(9, { path := "db/g/9" })] },
        renamed := [("db/g/1", ".hidden-db/g/1"), ("db/g/5", ".hidden-db/g/5")],
        closedEntries := [1, 5],
        scheduledDeletes := [".hidden-db/g/5", ".hidden-db/g/1"] } := by
  rw [Group.remove_strictly_below exampleGroupThreeEntries 6 (by decide) (by decide)]
  rfl

end Zangetsu
